import Mathlib

/-!
Verification development for the nether-portal solver.

This file gives a shallow embedding, in Lean 4, of the JavaScript sources
(js/utils.js, js/parser.js, js/solver.js) of the portal-network optimizer,
followed by theorems checking the natural-language specification against it.

Modelling conventions:
* JavaScript numbers are modelled as rationals (ℚ); the numeric values that
  occur in this program (integer block coordinates, halves, eighths) are all
  exactly representable, and Math.floor is Int.floor.
* JavaScript objects used as string-keyed maps are modelled as association
  lists in insertion order, matching JS enumeration order of plain objects.
* Math.random() draws are passed in explicitly as rational inputs in [0,1),
  and random comparison outcomes in the annealer as explicit Booleans, so all
  functions are deterministic in their inputs.
* Where the source would crash on a missing key (the solver always calls these
  functions with complete states), the model returns a harmless default or
  skips the entry; theorems about those functions carry the well-formedness
  hypotheses that make such paths unreachable.
-/

/-! ## js/utils.js -/

structure Vec3 where
  x : ℚ
  y : ℚ
  z : ℚ
deriving DecidableEq, Repr

/-- Constants.O_SCALE (1/8): scale used when the destination is the Nether. -/
def O_SCALE : ℚ := 1 / 8

/-- Constants.N_SCALE (8): scale used when the destination is the Overworld. -/
def N_SCALE : ℚ := 8

/-- Constants.O_SEARCH_RADIUS (128). -/
def O_SEARCH_RADIUS : ℚ := 128

/-- Constants.N_SEARCH_RADIUS (16). -/
def N_SEARCH_RADIUS : ℚ := 16

/-- Constants.ENTITY_DECIMAL_OFFSET, the portal-center offset (0.5, 0.0, 0.5). -/
def ENTITY_DECIMAL_OFFSET : Vec3 := ⟨1/2, 0, 1/2⟩

/-- The two dimensions, Constants.O_DIM and Constants.N_DIM. -/
inductive Dim where
  | O : Dim
  | N : Dim
deriving DecidableEq, Repr

/-- Portal facing axis, the strings X and Z in the source. -/
inductive Facing where
  | X : Facing
  | Z : Facing
deriving DecidableEq, Repr

def vec3 (x y z : ℚ) : Vec3 := ⟨x, y, z⟩

def addVec3 (v1 v2 : Vec3) : Vec3 := ⟨v1.x + v2.x, v1.y + v2.y, v1.z + v2.z⟩

def floorVec3 (v : Vec3) : Vec3 := ⟨⌊v.x⌋, ⌊v.y⌋, ⌊v.z⌋⟩

def scaleVec3XZ (v : Vec3) (scale : ℚ) : Vec3 := ⟨v.x * scale, v.y, v.z * scale⟩

def distSq (p1 p2 : Vec3) : ℚ :=
  (p1.x - p2.x) * (p1.x - p2.x) + (p1.y - p2.y) * (p1.y - p2.y) +
    (p1.z - p2.z) * (p1.z - p2.z)

/-- getCoordScale: destination Nether means travel O→N, use O_SCALE (1/8);
destination Overworld means travel N→O, use N_SCALE (8). -/
def getCoordScale (destinationDimension : Dim) : ℚ :=
  if destinationDimension = Dim.N then O_SCALE else N_SCALE

def getSearchRadius (dimension : Dim) : ℚ :=
  if dimension = Dim.N then N_SEARCH_RADIUS else O_SEARCH_RADIUS

/-- convertToOverworld: N coordinates are rescaled by N_SCALE on x,z for
optimization distance calculations; Overworld coordinates are unchanged. -/
def convertToOverworld (pos : Vec3) (sourceDimension : Dim) : Vec3 :=
  if sourceDimension = Dim.O then pos else scaleVec3XZ pos N_SCALE

/-- getEntityTestPositions: the center probe plus two probes spread by
half the entity width along the axis perpendicular to the facing. -/
def getEntityTestPositions (portalPosInt : Vec3) (facing : Facing)
    (entityWidth : ℚ) : List Vec3 :=
  let center := addVec3 portalPosInt ENTITY_DECIMAL_OFFSET
  let halfWidth := entityWidth / 2
  match facing with
  | Facing.X =>
      [center, ⟨center.x, center.y, center.z + halfWidth⟩,
        ⟨center.x, center.y, center.z - halfWidth⟩]
  | Facing.Z =>
      [center, ⟨center.x + halfWidth, center.y, center.z⟩,
        ⟨center.x - halfWidth, center.y, center.z⟩]

/-- randomInt(min, max): Math.floor(Math.random() * (max - min + 1)) + min,
with the Math.random() draw r passed explicitly.  Bounds may be any rationals,
exactly as in the source (the parser does not force integers). -/
def randomInt (lo hi : ℚ) (r : ℚ) : ℚ := (⌊r * (hi - lo + 1)⌋ : ℚ) + lo

/-! ## Data model (js/parser.js problem object) -/

/-- POS constraint type: INC or EXC. -/
inductive CType where
  | INC : CType
  | EXC : CType
deriving DecidableEq, Repr

/-- A POS constraint record as built by the parser. -/
structure PosConstraint where
  portalName : String
  ctype : CType
  min : Vec3
  max : Vec3
deriving DecidableEq, Repr

/-- A portal record.  The source keeps the inclusive/exclusive lists inside a
nested constraints object; they are flattened into two fields here. -/
structure Portal where
  name : String
  dim : Dim
  face : Facing
  pos : Vec3
  inclusive : List PosConstraint
  exclusive : List PosConstraint
  outgoingLinks : List String
deriving DecidableEq, Repr

/-- An optimizationPairs entry: type portal (pair of portals) or
type position (portal and a fixed Overworld target point). -/
inductive OptGoal where
  | portalPair (p1 p2 : String) (weight : ℚ) : OptGoal
  | portalPos (p1 : String) (target : Vec3) (weight : ℚ) : OptGoal
deriving DecidableEq, Repr

def OptGoal.weight : OptGoal → ℚ
  | OptGoal.portalPair _ _ w => w
  | OptGoal.portalPos _ _ w => w

/-- The parsed problem.  portals is an insertion-ordered association list
modelling the JS object keyed by portal name. -/
structure Problem where
  entitySize : ℚ
  portals : List (String × Portal)
  positionConstraints : List PosConstraint
  desiredLinks : List (String × String)
  optimizationPairs : List OptGoal
deriving DecidableEq, Repr

/-- A solver state: portal name to position, insertion-ordered. -/
abbrev PState := List (String × Vec3)

def lookupPortal (prob : Problem) (nm : String) : Option Portal :=
  (prob.portals.find? (fun p => p.1 = nm)).map (fun p => p.2)

def lookupState (st : PState) (nm : String) : Option Vec3 :=
  (st.find? (fun p => p.1 = nm)).map (fun p => p.2)

/-- state[name] where the solver knows the key is present; the default is
never reached on complete states. -/
def getPos (st : PState) (nm : String) : Vec3 :=
  (lookupState st nm).getD ⟨0, 0, 0⟩

/-- problem.portals[name].dim where the caller knows the portal exists. -/
def getDim (prob : Problem) (nm : String) : Dim :=
  ((lookupPortal prob nm).map Portal.dim).getD Dim.O

/-- Componentwise box membership: the six inline comparisons
min.x ≤ p.x ≤ max.x, etc., used throughout the solver. -/
def inBox (c : PosConstraint) (p : Vec3) : Bool :=
  c.min.x ≤ p.x ∧ p.x ≤ c.max.x ∧ c.min.y ≤ p.y ∧ p.y ≤ c.max.y ∧
    c.min.z ≤ p.z ∧ p.z ≤ c.max.z

/-! ## Link validity predicate (solver.js checkActualLink) -/

/-- The floored rescaled probe point: Bd = floorVec3(scaleVec3XZ(entityPos,
getCoordScale(destDim))), the target block of the search. -/
def targetBlock (destDim : Dim) (entityPos : Vec3) : Vec3 :=
  floorVec3 (scaleVec3XZ entityPos (getCoordScale destDim))

/-- The potentialTargets collection: every portal of the destination dimension
whose state position is within the square search radius of Bd on x and z
(no restriction on y).  Entries of the state without a portal record are
skipped (the source would crash there; states are always complete). -/
def searchCandidates (prob : Problem) (st : PState) (destDim : Dim)
    (Bd : Vec3) : List (String × Vec3) :=
  let searchRadius := getSearchRadius destDim
  st.filterMap (fun nc =>
    match lookupPortal prob nc.1 with
    | some pp =>
        if pp.dim = destDim ∧ |nc.2.x - Bd.x| ≤ searchRadius ∧
            |nc.2.z - Bd.z| ≤ searchRadius then some nc else none
    | none => none)

/-- The closest-portal loop of checkActualLink, running over the remaining
candidates with current best b: strictly smaller squared distance always
wins; equal squared distance wins only with strictly lower y. -/
def selectClosestFrom (Bd : Vec3) (b : String × Vec3) :
    List (String × Vec3) → String × Vec3
  | [] => b
  | t :: rest =>
      let dT := distSq Bd t.2
      let dB := distSq Bd b.2
      if dT < dB then selectClosestFrom Bd t rest
      else if dT = dB ∧ t.2.y < b.2.y then selectClosestFrom Bd t rest
      else selectClosestFrom Bd b rest

/-- Selection over the whole candidate list (minDistanceSq starts at
Infinity, so the first candidate always becomes the initial best). -/
def selectClosest (Bd : Vec3) : List (String × Vec3) → Option (String × Vec3)
  | [] => none
  | t :: rest => some (selectClosestFrom Bd t rest)

/-- Per-probe body of checkActualLink: compute the target block, collect the
candidates, fail on an empty collection, otherwise demand that the selected
closest portal is the expected destination. -/
def probeLinksTo (prob : Problem) (st : PState) (destDim : Dim)
    (expectedDest : String) (entityPos : Vec3) : Bool :=
  let Bd := targetBlock destDim entityPos
  match selectClosest Bd (searchCandidates prob st destDim Bd) with
  | none => false
  | some c => c.1 = expectedDest

/-- checkActualLink: the link from sourcePortalName to expectedDestPortalName
holds in currentState iff every entity test position probes to the expected
destination.  The source crashes if either portal or the source position is
missing; that unreachable path is modelled as false. -/
def checkActualLink (prob : Problem) (sourcePortalName expectedDestPortalName :
    String) (currentState : PState) : Bool :=
  match lookupPortal prob sourcePortalName,
      lookupState currentState sourcePortalName,
      lookupPortal prob expectedDestPortalName with
  | some sourcePortal, some sourcePos, some destPortal =>
      let testPositions :=
        getEntityTestPositions sourcePos sourcePortal.face prob.entitySize
      testPositions.all
        (probeLinksTo prob currentState destPortal.dim expectedDestPortalName)
  | _, _, _ => false

/-! ## Position constraints and cost (solver.js) -/

/-- satisfiesPositionConstraints: inside at least one inclusive box and
outside every exclusive box. -/
def satisfiesPositionConstraints (portal : Portal) (pos : Vec3) : Bool :=
  (portal.inclusive.any (fun c => inBox c pos)) &&
    (portal.exclusive.all (fun c => !(inBox c pos)))

/-- Number of desired links failing checkActualLink in the given state. -/
def countLinkViolations (prob : Problem) (st : PState) : ℕ :=
  (prob.desiredLinks.filter
    (fun l => !(checkActualLink prob l.1 l.2 st))).length

/-- Number of state entries failing their portal's position constraints.
A state entry without a portal record would crash in the source; it is
counted as a violation here and never occurs on complete states. -/
def countPosViolations (prob : Problem) (st : PState) : ℕ :=
  (st.filter (fun nc =>
    match lookupPortal prob nc.1 with
    | some p => !(satisfiesPositionConstraints p nc.2)
    | none => true)).length

/-- Squared optimization distance of one goal, after converting both operands
to Overworld coordinates (calculateOptimizationDistanceSq and
calculateOptimizationDistancePosSq). -/
def optGoalDistSq (prob : Problem) (st : PState) : OptGoal → ℚ
  | OptGoal.portalPair p1 p2 _ =>
      distSq (convertToOverworld (getPos st p1) (getDim prob p1))
        (convertToOverworld (getPos st p2) (getDim prob p2))
  | OptGoal.portalPos p1 target _ =>
      distSq (convertToOverworld (getPos st p1) (getDim prob p1)) target

/-- The accumulated weighted optimization term of calculateCost. -/
def optimizationTerm (prob : Problem) (st : PState) (w : ℚ) : ℚ :=
  prob.optimizationPairs.foldl
    (fun acc pair => acc + optGoalDistSq prob st pair * pair.weight * w) 0

/-- The large link penalty used when the optimization term is enabled. -/
def linkPenaltyStage2 : ℚ := 10000000000

/-- The defensive position-violation penalty. -/
def posPenalty : ℚ := 10000000

/-- calculateCost(state, optimizationWeightMultiplier): link violations times
a penalty factor (1 at weight 0, 10^10 otherwise) plus position violations
times 10^7, plus, when the weight is positive, the weighted optimization
distances. -/
def calculateCost (prob : Problem) (st : PState) (w : ℚ) : ℚ :=
  let linkPenaltyFactor : ℚ := if 0 < w then linkPenaltyStage2 else 1
  let base : ℚ := (countLinkViolations prob st : ℚ) * linkPenaltyFactor +
    (countPosViolations prob st : ℚ) * posPenalty
  if 0 < w then base + optimizationTerm prob st w else base

/-! ## Neighbor generation (solver.js generateNeighbor) -/

/-- The four Math.random() draws of one large-jump attempt: the inclusive
region pick and the three coordinate draws. -/
structure JumpDraw where
  regionR : ℚ
  xR : ℚ
  yR : ℚ
  zR : ℚ
deriving DecidableEq, Repr

/-- The three Math.random() draws of one small-move attempt. -/
structure MoveDraw where
  xR : ℚ
  yR : ℚ
  zR : ℚ
deriving DecidableEq, Repr

/-- All random inputs consumed by one generateNeighbor call. -/
structure NeighborDraws where
  portalR : ℚ
  jumpChanceR : ℚ
  jumpDraws : List JumpDraw
  moveDraws : List MoveDraw
deriving DecidableEq, Repr

/-- newState[portalName] = pos on the copied state: replace the binding in
place, or append it if absent (JS object assignment order). -/
def updateState : PState → String → Vec3 → PState
  | [], nm, pos => [(nm, pos)]
  | e :: rest, nm, pos =>
      if e.1 = nm then (nm, pos) :: rest else e :: updateState rest nm pos

/-- stage1LargeJumpChance (0.2). -/
def stage1LargeJumpChance : ℚ := 1 / 5

/-- The large-jump attempt loop (up to 10 attempts in the caller): draw a
random inclusive region and a random point in it, and return the point if it
avoids every exclusive box.  An empty inclusive list breaks out of the loop.
An out-of-range region draw would crash the source; it is modelled as giving
up the jump (unreachable for draws in [0,1)). -/
def tryJump (portal : Portal) : List JumpDraw → Option Vec3
  | [] => none
  | d :: rest =>
      if portal.inclusive.length = 0 then none
      else
        match portal.inclusive.get?
            (randomInt 0 (portal.inclusive.length - 1) d.regionR).floor.toNat with
        | none => none
        | some incConstraint =>
            let randomPos : Vec3 :=
              ⟨randomInt incConstraint.min.x incConstraint.max.x d.xR,
               randomInt incConstraint.min.y incConstraint.max.y d.yR,
               randomInt incConstraint.min.z incConstraint.max.z d.zR⟩
            if portal.exclusive.any (fun exc => inBox exc randomPos) then
              tryJump portal rest
            else some randomPos

/-- The small-move attempt loop (up to 50 attempts in the caller): a random
nonzero offset in [-3,3]^3 applied to the current position, accepted when the
result is inside an inclusive box and outside all exclusive boxes. -/
def trySmallMove (portal : Portal) (currentPos : Vec3) :
    List MoveDraw → Option Vec3
  | [] => none
  | d :: rest =>
      let move : Vec3 := ⟨randomInt (-3) 3 d.xR, randomInt (-3) 3 d.yR,
        randomInt (-3) 3 d.zR⟩
      if move.x = 0 ∧ move.y = 0 ∧ move.z = 0 then
        trySmallMove portal currentPos rest
      else
        let nextPos := addVec3 currentPos move
        if portal.inclusive.any (fun inc => inBox inc nextPos) then
          if portal.exclusive.any (fun exc => inBox exc nextPos) then
            trySmallMove portal currentPos rest
          else some nextPos
        else trySmallMove portal currentPos rest

/-- generateNeighbor(state, isStage1): pick a random portal; in Stage 1 with
probability stage1LargeJumpChance try a large jump (at most 10 attempts,
falling through to the small move on failure); otherwise try a small move
(at most 50 attempts); return null when nothing valid was found.  Missing
portal or state entries would crash the source and are modelled as null. -/
def generateNeighbor (prob : Problem) (st : PState) (isStage1 : Bool)
    (d : NeighborDraws) : Option PState :=
  let names := prob.portals.map (fun p => p.1)
  match names.get? (randomInt 0 (names.length - 1) d.portalR).floor.toNat with
  | none => none
  | some portalName =>
      match lookupPortal prob portalName, lookupState st portalName with
      | some portal, some currentPos =>
          let jumpResult :=
            if isStage1 ∧ d.jumpChanceR < stage1LargeJumpChance then
              tryJump portal (d.jumpDraws.take 10)
            else none
          match jumpResult with
          | some newPos => some (updateState st portalName newPos)
          | none =>
              match trySmallMove portal currentPos (d.moveDraws.take 50) with
              | some newPos => some (updateState st portalName newPos)
              | none => none
      | _, _ => none

/-! ## Two-stage annealer (solver.js solve) -/

/-- this.initialTemperature. -/
def initialTemperature : ℚ := 100000

/-- this.coolingRate (Stage 2 geometric cooling factor). -/
def coolingRate : ℚ := 995 / 1000

/-- this.absoluteTemperature (temperature floor). -/
def absoluteTemperature : ℚ := 1 / 100

/-- this.stage1CoolingRate. -/
def stage1CoolingRate : ℚ := 997 / 1000

/-- this.stage1TempMultiplier. -/
def stage1TempMultiplier : ℚ := 3 / 2

/-- The mutable locals of the Stage 2 loop. -/
structure Stage2St where
  currentState : PState
  currentFullCost : ℚ
  bestState : PState
  minCost : ℚ
  temperature : ℚ
deriving Repr

/-- The accepted-move update of the Stage 2 loop body, written field by
field: currentState and currentFullCost take the neighbor's values, and the
best state and its cost are replaced exactly when the new full cost beats
the recorded minimum. -/
def stage2Accept (s : Stage2St) (nb : PState) (c : ℚ) : Stage2St :=
  { currentState := nb
    currentFullCost := c
    bestState := if c < s.minCost then nb else s.bestState
    minCost := if c < s.minCost then c else s.minCost
    temperature := s.temperature }

/-- The cooling line: temperature *= coolingRate. -/
def stage2Cool (s : Stage2St) : Stage2St :=
  { s with temperature := s.temperature * coolingRate }

/-- One Stage 2 iteration.  neighborState is the generateNeighbor result
(none models a generation failure) and acceptDraw is the outcome of the
probabilistic comparison Math.random() < exp(-delta/T).  A failed generation
or an infeasible neighbor (weight-0 cost > 0) leaves the whole state,
temperature included, unchanged: those paths continue before the cooling
line.  A feasible neighbor is accepted when it improves the full cost or the
probabilistic draw succeeds; afterwards the temperature is cooled. -/
def stage2Step (prob : Problem) (s : Stage2St) (neighborState : Option PState)
    (acceptDraw : Bool) : Stage2St :=
  match neighborState with
  | none => s
  | some nb =>
      let neighborViolations := calculateCost prob nb 0
      if 0 < neighborViolations then s
      else
        let neighborFullCost := calculateCost prob nb 1
        let deltaCost := neighborFullCost - s.currentFullCost
        let s1 :=
          if deltaCost < 0 ∨ acceptDraw then stage2Accept s nb neighborFullCost
          else s
        stage2Cool s1

/-- The Stage 2 loop over its iteration inputs; the list length models the
iteration budget.  In the source, iterations that continue early also skip
the temperature-floor test, but they leave the temperature unchanged, so for
any entry temperature at or above the floor the behaviour is identical. -/
def stage2Loop (prob : Problem) : List (Option PState × Bool) → Stage2St →
    Stage2St
  | [], s => s
  | (nb, a) :: rest, s =>
      let s1 := stage2Step prob s nb a
      if s1.temperature < absoluteTemperature then s1
      else stage2Loop prob rest s1

/-- The mutable locals of one Stage 1 annealing attempt, together with the
cross-attempt tracking variables bestViolationState / minViolationsFound and
the feasibility outcome. -/
structure Stage1St where
  currentState : PState
  currentCost : ℚ
  bestViolationState : PState
  minViolationsFound : ℚ
  temp : ℚ
  feasibleFound : Bool
  feasibleState : Option PState
deriving Repr

/-- The accepted-move update of the Stage 1 loop body, written field by
field: the current state and its violation cost take the neighbor's values,
the tracked best is replaced exactly on a strict improvement of the
violation count, and feasibility is flagged exactly when the count is
zero. -/
def stage1Accept (s : Stage1St) (nb : PState) (c : ℚ) : Stage1St :=
  { currentState := nb
    currentCost := c
    bestViolationState := if c < s.minViolationsFound then nb
      else s.bestViolationState
    minViolationsFound := if c < s.minViolationsFound then c
      else s.minViolationsFound
    temp := s.temp
    feasibleFound := if c = 0 then true else s.feasibleFound
    feasibleState := if c = 0 then some nb else s.feasibleState }

/-- The Stage 1 cooling line: temp *= stage1CoolingRate. -/
def stage1Cool (s : Stage1St) : Stage1St :=
  { s with temp := s.temp * stage1CoolingRate }

/-- One Stage 1 iteration.  Acceptance: a violation decrease is always
accepted; otherwise acceptDraw is the outcome of the random comparison (which
for an equal count succeeds with probability 1 in the source, and for an
increase with probability stage1AcceptWorseViolationProb·exp(-delta/T)).
An accepted state updates the tracked best when it strictly lowers the
violation count, and ends the attempt when it reaches zero violations; that
break happens before the cooling line, which otherwise always runs.  A failed
generation leaves everything, temperature included, unchanged. -/
def stage1Step (prob : Problem) (s : Stage1St) (neighborState : Option PState)
    (acceptDraw : Bool) : Stage1St :=
  match neighborState with
  | none => s
  | some nb =>
      let neighborCost := calculateCost prob nb 0
      let deltaCost := neighborCost - s.currentCost
      let accept := if deltaCost < 0 then true else acceptDraw
      let s1 := if accept then stage1Accept s nb neighborCost else s
      if s1.feasibleFound then s1
      else stage1Cool s1

/-- The Stage 1 annealing loop of one attempt; ends early on feasibility or
on the temperature floor (same remark as for stage2Loop on skipped
iterations). -/
def stage1Loop (prob : Problem) : List (Option PState × Bool) → Stage1St →
    Stage1St
  | [], s => s
  | (nb, a) :: rest, s =>
      let s1 := stage1Step prob s nb a
      if s1.feasibleFound then s1
      else if s1.temp < absoluteTemperature then s1
      else stage1Loop prob rest s1

/-- Outcome of the Stage 1 attempt loop. -/
structure Stage1Run where
  bestViolationState : PState
  minViolationsFound : ℚ
  feasibleFound : Bool
  feasibleState : Option PState
deriving Repr

/-- One Stage 1 attempt, started on state cur with tracking values best0/min0:
update the tracking from the initial cost, succeed at once on zero violations,
otherwise run the annealing loop; for attempts other than the last, fold the
attempt's final current state into the tracking afterwards. -/
def stage1AttemptBody (prob : Problem) (cur : PState) (best0 : PState)
    (min0 : ℚ) (steps : List (Option PState × Bool)) (isNotLast : Bool) :
    Stage1Run :=
  let cost := calculateCost prob cur 0
  let best1 := if cost < min0 then cur else best0
  let min1 := if cost < min0 then cost else min0
  if cost = 0 then ⟨best1, min1, true, some cur⟩
  else
    let s0 : Stage1St := ⟨cur, cost, best1, min1,
      initialTemperature * stage1TempMultiplier, false, none⟩
    let sF := stage1Loop prob steps s0
    if sF.feasibleFound then
      ⟨sF.bestViolationState, sF.minViolationsFound, true, sF.feasibleState⟩
    else if isNotLast then
      let c := calculateCost prob sF.currentState 0
      if c < sF.minViolationsFound then ⟨sF.currentState, c, false, none⟩
      else ⟨sF.bestViolationState, sF.minViolationsFound, false, none⟩
    else ⟨sF.bestViolationState, sF.minViolationsFound, false, none⟩

/-- Attempts 2..stage1MaxAttempts.  Each entry carries the re-initialization
result (none models an initializeState failure, which skips the attempt) and
the attempt's annealing-loop inputs.  On a successful re-initialization the
source resets bestViolationState / minViolationsFound to the fresh initial
state, discarding the tracking of the earlier attempts. -/
def stage1Rest (prob : Problem) :
    List (Option PState × List (Option PState × Bool)) → Stage1Run → Stage1Run
  | [], acc => acc
  | (reinit, steps) :: rest, acc =>
      if acc.feasibleFound then acc
      else
        match reinit with
        | none => stage1Rest prob rest acc
        | some cur =>
            let acc' := stage1AttemptBody prob cur cur
              (calculateCost prob cur 0) steps (!rest.isEmpty)
            stage1Rest prob rest acc'

/-- The whole Stage 1 phase of solve: the top-level initializeState result
initSt seeds both the first attempt and the tracking variables; the remaining
attempts re-initialize and reset the tracking. -/
def stage1Solve (prob : Problem) (initSt : PState)
    (steps1 : List (Option PState × Bool))
    (restAttempts : List (Option PState × List (Option PState × Bool))) :
    Stage1Run :=
  let acc1 := stage1AttemptBody prob initSt initSt
    (calculateCost prob initSt 0) steps1 (!restAttempts.isEmpty)
  stage1Rest prob restAttempts acc1

/-! ## Verifier and finalization (solver.js verifySolution and the tail of
solve).  The reporting-only optimizationDistances / linkDistances tables are
omitted: they are toFixed-formatted output that feeds neither the success
flag nor the message. -/

/-- The results record of verifySolution (reporting tables omitted). -/
structure SolveResult where
  solution : PState
  success : Bool
  message : String
  violatedLinks : List String
  violatedPositions : List String
deriving Repr

/-- Portals of the state violating their position constraints, in state
order (a missing portal record would crash the source). -/
def violatedPositionsOf (prob : Problem) (st : PState) : List String :=
  (st.filter (fun nc =>
    match lookupPortal prob nc.1 with
    | some p => !(satisfiesPositionConstraints p nc.2)
    | none => true)).map (fun nc => nc.1)

/-- Desired links failing checkActualLink, rendered as in the source. -/
def violatedLinksOf (prob : Problem) (st : PState) : List String :=
  (prob.desiredLinks.filter (fun l => !(checkActualLink prob l.1 l.2 st))).map
    (fun l => l.1 ++ " -> " ++ l.2)

/-- verifySolution: recompute both violation lists; success iff both are
empty; on failure build the diagnostic message of the source. -/
def verifySolution (prob : Problem) (st : PState) : SolveResult :=
  let vp := violatedPositionsOf prob st
  let vl := violatedLinksOf prob st
  if vp.isEmpty && vl.isEmpty then
    ⟨st, true, "Solution found.", vl, vp⟩
  else
    let msg := "Constraints violated. Best attempt shown." ++
      (if vp.isEmpty then "" else
        " Portals violating position constraints: " ++
          String.intercalate ", " vp ++ ".") ++
      (if vl.isEmpty then "" else
        " Desired links not satisfied: " ++ String.intercalate "; " vl ++ ".")
    ⟨st, false, msg, vl, vp⟩

/-- Rendering of the final violation figure inside the internal-error
message; the weight-0 cost is a natural number in every reachable run, for
which this matches the JS number-to-string conversion. -/
def ratToString (q : ℚ) : String :=
  if q.den = 1 then toString q.num
  else toString q.num ++ "/" ++ toString q.den

/-- The finalization tail of solve after Stage 2: verify the recorded best
state, then re-check its weight-0 cost; a positive value forces success to
false and appends the internal-error note to the message ('Optimization
finished.' replaces an empty message, which verifySolution never produces);
otherwise a successful verification gets the positive message. -/
def finalizeStage2 (prob : Problem) (bestState : PState) : SolveResult :=
  let finalResult := verifySolution prob bestState
  let finalViolations := calculateCost prob bestState 0
  if 0 < finalViolations then
    { finalResult with
      success := false
      message := (if finalResult.message = "" then "Optimization finished."
          else finalResult.message) ++
        " (Internal Error: Final state has " ++ ratToString finalViolations ++
        " violations)" }
  else if finalResult.success then
    { finalResult with message := "Solution found and optimized." }
  else finalResult

/-! ## Parser (js/parser.js parseProblem)

The parser is modelled over the characters of the input.  String.trim,
split(/\s+/), toUpperCase and split('\n') are implemented on character lists;
parseFloat / Number are modelled by parseRat, which handles the plain
(optionally signed, optionally fractional) decimal literals this grammar
uses, returning none for NaN. -/

/-- Split a character list at every occurrence of the separator (JS
String.prototype.split with a single-character separator). -/
def splitListOn (sep : Char) (cs : List Char) : List (List Char) :=
  match cs with
  | [] => [[]]
  | c :: rest =>
      let r := splitListOn sep rest
      if c = sep then [] :: r
      else
        match r with
        | [] => [[c]]
        | h :: t => (c :: h) :: t

/-- JS String.prototype.trim on a character list. -/
def trimChars (cs : List Char) : List Char :=
  ((cs.dropWhile Char.isWhitespace).reverse.dropWhile Char.isWhitespace).reverse

/-- Split a trimmed line on runs of whitespace (split(/\s+/)); the
accumulator carries the current token reversed. -/
def splitWSAux : List Char → List Char → List (List Char)
  | [], acc => if acc.isEmpty then [] else [acc.reverse]
  | c :: rest, acc =>
      if c.isWhitespace then
        if acc.isEmpty then splitWSAux rest [] else acc.reverse :: splitWSAux rest []
      else splitWSAux rest (c :: acc)

def tokenize (cs : List Char) : List String :=
  (splitWSAux cs []).map (fun t => String.mk t)

/-- toUpperCase (the grammar only uses ASCII). -/
def upperStr (s : String) : String := String.mk (s.data.map Char.toUpper)

/-- Digit-string value; none on a non-digit or on the empty list. -/
def parseDigits : List Char → Option ℕ
  | [] => none
  | cs =>
      cs.foldl (fun acc c =>
        match acc with
        | none => none
        | some n => if c.isDigit then some (n * 10 + (c.toNat - 48)) else none)
        (some 0)

/-- Value of a digit list read as the fractional part. -/
def fracVal (cs : List Char) : Option ℚ :=
  match parseDigits cs with
  | none => none
  | some n => some ((n : ℚ) / (10 : ℚ) ^ cs.length)

/-- parseFloat / Number on the plain decimal literals of this grammar:
optional sign, then digits with an optional decimal point; at least one
digit somewhere.  none models NaN. -/
def parseRat (s : String) : Option ℚ :=
  let cs := s.data
  let signed : Bool × List Char :=
    match cs with
    | '-' :: rest => (true, rest)
    | '+' :: rest => (false, rest)
    | _ => (false, cs)
  let body := signed.2
  let intPart := body.takeWhile (fun c => c ≠ '.')
  let rest := body.dropWhile (fun c => c ≠ '.')
  let mag : Option ℚ :=
    match rest with
    | [] => (parseDigits intPart).map (fun n => (n : ℚ))
    | _ :: fracPart =>
        if intPart.isEmpty then fracVal fracPart
        else if fracPart.isEmpty then (parseDigits intPart).map (fun n => (n : ℚ))
        else
          match parseDigits intPart, fracVal fracPart with
          | some i, some f => some ((i : ℚ) + f)
          | _, _ => none
  mag.map (fun m => if signed.1 then -m else m)

/-- A fresh portal record as built by the PORTAL case. -/
def newPortal (name : String) (dim : Dim) (face : Facing) : Portal :=
  ⟨name, dim, face, vec3 0 0 0, [], [], []⟩

/-- The empty problem with the defaults of the source (entitySize 1.0). -/
def emptyProblem : Problem := ⟨1, [], [], [], []⟩

def hasPortal (prob : Problem) (nm : String) : Bool :=
  prob.portals.any (fun p => p.1 = nm)

/-- Append a fresh portal (JS object key insertion). -/
def insertPortal (prob : Problem) (nm : String) (p : Portal) : Problem :=
  { prob with portals := prob.portals ++ [(nm, p)] }

/-- Update the portal stored under a name, leaving the order unchanged. -/
def modifyPortal (prob : Problem) (nm : String) (f : Portal → Portal) :
    Problem :=
  { prob with portals :=
      prob.portals.map (fun p => if p.1 = nm then (p.1, f p.2) else p) }

/-- The ENTITY_SIZE case of the parsing switch. -/
def parseEntitySizeCmd (prob : Problem) (parts : List String) :
    Except String Problem :=
  if parts.length ≠ 2 ∨ (parseRat (parts.getD 1 "")).isNone then
    Except.error "Invalid ENTITY_SIZE format"
  else
    let v := (parseRat (parts.getD 1 "")).getD 0
    if v ≤ 0 then Except.error "ENTITY_SIZE must be positive"
    else Except.ok { prob with entitySize := v }

/-- The PORTAL case of the parsing switch. -/
def parsePortalCmd (prob : Problem) (parts : List String) :
    Except String Problem :=
  if parts.length ≠ 4 then Except.error "Invalid PORTAL format"
  else
    let name := parts.getD 1 ""
    let dimS := parts.getD 2 ""
    let faceS := parts.getD 3 ""
    if hasPortal prob name then
      Except.error ("Duplicate portal name: " ++ name)
    else if dimS ≠ "O" ∧ dimS ≠ "N" then
      Except.error ("Invalid dimension for portal " ++ name)
    else if faceS ≠ "X" ∧ faceS ≠ "Z" then
      Except.error ("Invalid facing for portal " ++ name)
    else
      let dim := if dimS = "O" then Dim.O else Dim.N
      let face := if faceS = "X" then Facing.X else Facing.Z
      Except.ok (insertPortal prob name (newPortal name dim face))

/-- The POS case of the parsing switch. -/
def parsePosCmd (prob : Problem) (parts : List String) :
    Except String Problem :=
  if parts.length ≠ 9 then Except.error "Invalid POS format"
  else
    let portalNamePos := parts.getD 1 ""
    let typeS := upperStr (parts.getD 2 "")
    let coords := (parts.drop 3).map parseRat
    if !(hasPortal prob portalNamePos) then
      Except.error ("Unknown portal in POS constraint")
    else if typeS ≠ "INC" ∧ typeS ≠ "EXC" then
      Except.error ("Invalid POS type")
    else if coords.any (fun c => c.isNone) then
      Except.error ("Invalid coordinates in POS constraint for " ++
        portalNamePos)
    else
      let cs := coords.map (fun c => c.getD 0)
      let mn := vec3 (cs.getD 0 0) (cs.getD 1 0) (cs.getD 2 0)
      let mx := vec3 (cs.getD 3 0) (cs.getD 4 0) (cs.getD 5 0)
      if mn.x > mx.x ∨ mn.y > mx.y ∨ mn.z > mx.z then
        Except.error ("Min coordinates must be <= Max coordinates in POS" ++
          " constraint for " ++ portalNamePos)
      else
        let ctype := if typeS = "INC" then CType.INC else CType.EXC
        let constraint : PosConstraint := ⟨portalNamePos, ctype, mn, mx⟩
        let prob1 := { prob with
          positionConstraints := prob.positionConstraints ++ [constraint] }
        if typeS = "INC" then
          Except.ok (modifyPortal prob1 portalNamePos (fun p =>
            { p with inclusive := p.inclusive ++ [constraint] }))
        else
          Except.ok (modifyPortal prob1 portalNamePos (fun p =>
            { p with exclusive := p.exclusive ++ [constraint] }))

/-- The LINK case of the parsing switch. -/
def parseLinkCmd (prob : Problem) (parts : List String) :
    Except String Problem :=
  if parts.length ≠ 3 then Except.error "Invalid LINK format"
  else
    let src := parts.getD 1 ""
    let dst := parts.getD 2 ""
    if !(hasPortal prob src) then
      Except.error ("Unknown source portal in LINK")
    else if !(hasPortal prob dst) then
      Except.error ("Unknown destination portal in LINK")
    else if getDim prob src = getDim prob dst then
      Except.error ("LINK source and destination must be in different" ++
        " dimensions")
    else
      let prob1 := { prob with
        desiredLinks := prob.desiredLinks ++ [(src, dst)] }
      Except.ok (modifyPortal prob1 src (fun p =>
        { p with outgoingLinks := p.outgoingLinks ++ [dst] }))

/-- The OPTIMIZE case of the parsing switch. -/
def parseOptimizeCmd (prob : Problem) (parts : List String) :
    Except String Problem :=
  if parts.length ≠ 3 ∧ parts.length ≠ 4 then
    Except.error "Invalid OPTIMIZE format"
  else
    let p1 := parts.getD 1 ""
    let p2 := parts.getD 2 ""
    if !(hasPortal prob p1) then Except.error ("Unknown portal in OPTIMIZE")
    else if !(hasPortal prob p2) then
      Except.error ("Unknown portal in OPTIMIZE")
    else
      let wOpt : Option ℚ :=
        if parts.length = 4 then parseRat (parts.getD 3 "") else some 1
      match wOpt with
      | none => Except.error "Invalid or negative weight for OPTIMIZE"
      | some w =>
          if w < 0 then
            Except.error "Invalid or negative weight for OPTIMIZE"
          else
            Except.ok { prob with optimizationPairs :=
              prob.optimizationPairs ++ [OptGoal.portalPair p1 p2 w] }

/-- The OPTIMIZE_POS case of the parsing switch; note that the slice taken
for the coordinate NaN check also spans the optional weight token, exactly
as in the source. -/
def parseOptimizePosCmd (prob : Problem) (parts : List String) :
    Except String Problem :=
  if parts.length ≠ 5 ∧ parts.length ≠ 6 then
    Except.error "Invalid OPTIMIZE_POS format"
  else
    let p1 := parts.getD 1 ""
    let targetCoords := (parts.drop 2).map parseRat
    if !(hasPortal prob p1) then
      Except.error ("Unknown portal in OPTIMIZE_POS")
    else if targetCoords.any (fun c => c.isNone) then
      Except.error ("Invalid coordinates in OPTIMIZE_POS for " ++ p1)
    else
      let cs := targetCoords.map (fun c => c.getD 0)
      let target := vec3 (cs.getD 0 0) (cs.getD 1 0) (cs.getD 2 0)
      let wOpt : Option ℚ :=
        if parts.length = 6 then parseRat (parts.getD 5 "") else some 1
      match wOpt with
      | none => Except.error "Invalid or negative weight for OPTIMIZE_POS"
      | some w =>
          if w < 0 then
            Except.error "Invalid or negative weight for OPTIMIZE_POS"
          else
            Except.ok { prob with optimizationPairs :=
              prob.optimizationPairs ++ [OptGoal.portalPos p1 target w] }

/-- One iteration of the parsing loop on an already trimmed, non-comment,
non-empty line, mirroring the switch statement.  Errors carry the inner
message; the caller adds the line prefix. -/
def parseLine (prob : Problem) (line : List Char) : Except String Problem :=
  match tokenize line with
  | [] => Except.error "Unknown command: "
  | cmd :: rest =>
    let parts := cmd :: rest
    let command := upperStr cmd
    if command = "ENTITY_SIZE" then parseEntitySizeCmd prob parts
    else if command = "PORTAL" then parsePortalCmd prob parts
    else if command = "POS" then parsePosCmd prob parts
    else if command = "LINK" then parseLinkCmd prob parts
    else if command = "OPTIMIZE" then parseOptimizeCmd prob parts
    else if command = "OPTIMIZE_POS" then parseOptimizePosCmd prob parts
    else Except.error ("Unknown command: " ++ command)

/-- The command a line contributes, if any: none for blank and comment
lines, otherwise the upper-cased first token. -/
def lineCommand (line : List Char) : Option String :=
  let t := trimChars line
  if t.take 1 = ['#'] ∨ t.isEmpty then none
  else
    match tokenize t with
    | [] => none
    | cmd :: _ => some (upperStr cmd)

/-- The final validation loop: every portal needs at least one inclusive
constraint (the fewer-than-two-portals console warning has no effect on the
result and is omitted). -/
def finalValidation (prob : Problem) : Except String Problem :=
  match prob.portals.find? (fun p => p.2.inclusive.isEmpty) with
  | some p => Except.error ("Portal " ++ p.1 ++
      " has no inclusive position constraints (POS INC) defined.")
  | none => Except.ok prob

/-- The parsing loop over the lines, with the 1-based line number for error
messages; blank and comment lines are skipped. -/
def parseLines (prob : Problem) (idx : ℕ) :
    List (List Char) → Except String Problem
  | [] => finalValidation prob
  | l :: rest =>
      let t := trimChars l
      if t.take 1 = ['#'] ∨ t.isEmpty then parseLines prob (idx + 1) rest
      else
        match parseLine prob t with
        | Except.error e =>
            Except.error ("Error parsing line " ++ toString (idx + 1) ++ ": " ++
              String.mk t ++ "\n" ++ e)
        | Except.ok p' => parseLines p' (idx + 1) rest

/-- parseProblem: split the input on newlines and run the parsing loop from
the defaults. -/
def parseProblem (inputText : String) : Except String Problem :=
  parseLines emptyProblem 0 (splitListOn '\n' inputText.data)

/-! ## Concrete instances used by the witnesses and counterexamples -/

/-- A permissive inclusive box. -/
def bigBox (nm : String) : PosConstraint :=
  ⟨nm, CType.INC, vec3 (-1000000) (-1000000) (-1000000),
    vec3 1000000 1000000 1000000⟩

def portalP1 : Portal :=
  ⟨"P1", Dim.O, Facing.X, vec3 0 0 0, [bigBox "P1"], [], ["P2"]⟩

def portalP2 : Portal :=
  ⟨"P2", Dim.N, Facing.X, vec3 0 0 0, [bigBox "P2"], [], ["P1"]⟩

/-- An Overworld/Nether portal pair that must link in both directions. -/
def probW : Problem :=
  ⟨1, [("P1", portalP1), ("P2", portalP2)], [bigBox "P1", bigBox "P2"],
    [("P1", "P2"), ("P2", "P1")], []⟩

/-- Both portals at the mutually consistent spot: zero violations. -/
def sGood : PState := [("P1", vec3 0 64 0), ("P2", vec3 0 64 0)]

/-- Nether portal moved to x = 16: the O→N search still finds it, but the
N→O target block lands at x = 132, outside the 128 search radius: exactly
one violation. -/
def sMid : PState := [("P1", vec3 0 64 0), ("P2", vec3 16 64 0)]

/-- Nether portal far away: both directions fail, two violations. -/
def sBad : PState := [("P1", vec3 0 64 0), ("P2", vec3 1000 64 1000)]

/-- A single-point integer inclusive box at the origin. -/
def incPoint : PosConstraint := ⟨"P", CType.INC, vec3 0 0 0, vec3 0 0 0⟩

def portalPoint : Portal :=
  ⟨"P", Dim.O, Facing.X, vec3 0 0 0, [incPoint], [], []⟩

/-- One portal whose only inclusive region is the single point (0,0,0). -/
def prob7 : Problem := ⟨1, [("P", portalPoint)], [incPoint], [], []⟩

def st7 : PState := [("P", vec3 0 0 0)]

/-- Draws making the large jump fire and land exactly on the current
position. -/
def d7 : NeighborDraws := ⟨0, 0, [⟨0, 0, 0, 0⟩], []⟩

/-- A fractional inclusive box: x from 0 to 1/2. -/
def incHalf : PosConstraint := ⟨"P", CType.INC, vec3 0 0 0, vec3 (1/2) 0 0⟩

def portalHalf : Portal :=
  ⟨"P", Dim.O, Facing.X, vec3 0 0 0, [incHalf], [], []⟩

def prob7b : Problem := ⟨1, [("P", portalHalf)], [incHalf], [], []⟩

/-- Draws whose x coordinate draw (0.9) makes randomInt(0, 1/2) return 1,
escaping the fractional box. -/
def d7b : NeighborDraws := ⟨0, 0, [⟨0, 9/10, 0, 0⟩], []⟩

/-- The input of the ENTITY_SIZE-default witness. -/
def txt10 : String := "# demo" ++ "\n" ++ "PORTAL A O X" ++ "\n" ++
  "POS A INC 0 0 0 0 0 0"

def c10Constraint : PosConstraint := ⟨"A", CType.INC, vec3 0 0 0, vec3 0 0 0⟩

/-- The problem txt10 parses to. -/
def prob10 : Problem :=
  ⟨1, [("A", ⟨"A", Dim.O, Facing.X, vec3 0 0 0, [c10Constraint], [], []⟩)],
    [c10Constraint], [], []⟩

/-- Decidable form of the absence of an ENTITY_SIZE directive. -/
def noEntitySizeCmd (text : String) : Bool :=
  (splitListOn '\n' text.data).all (fun l => lineCommand l ≠ some "ENTITY_SIZE")

/-! ## Helper lemmas -/

/-- A box whose bounds are integers (denominator 1) and ordered per axis;
the shape the domain grammar intends, under which randomInt sampling cannot
escape the box. -/
def intBox (c : PosConstraint) : Prop :=
  c.min.x.den = 1 ∧ c.min.y.den = 1 ∧ c.min.z.den = 1 ∧
  c.max.x.den = 1 ∧ c.max.y.den = 1 ∧ c.max.z.den = 1 ∧
  c.min.x ≤ c.max.x ∧ c.min.y ≤ c.max.y ∧ c.min.z ≤ c.max.z

instance (c : PosConstraint) : Decidable (intBox c) := by
  unfold intBox; infer_instance

/-- Draws of one jump attempt all lie in [0,1), as Math.random() guarantees. -/
def jumpDrawInRange (d : JumpDraw) : Prop :=
  0 ≤ d.xR ∧ d.xR < 1 ∧ 0 ≤ d.yR ∧ d.yR < 1 ∧ 0 ≤ d.zR ∧ d.zR < 1

instance (d : JumpDraw) : Decidable (jumpDrawInRange d) := by
  unfold jumpDrawInRange; infer_instance

lemma randomInt_bounds (lo hi r : ℚ) (hlo : lo.den = 1) (hhi : hi.den = 1)
    (hle : lo ≤ hi) (h0 : 0 ≤ r) (h1 : r < 1) :
    lo ≤ randomInt lo hi r ∧ randomInt lo hi r ≤ hi := by
  have hloe : (lo.num : ℚ) = lo := (Rat.den_eq_one_iff lo).mp hlo
  have hhie : (hi.num : ℚ) = hi := (Rat.den_eq_one_iff hi).mp hhi
  set n : ℚ := hi - lo + 1 with hn
  have hnpos : 0 < n := by rw [hn]; linarith
  have hrn0 : 0 ≤ r * n := mul_nonneg h0 hnpos.le
  have hrn : r * n < n := by
    have := mul_lt_mul_of_pos_right h1 hnpos
    simpa using this
  have hfl0 : 0 ≤ ⌊r * n⌋ := Int.floor_nonneg.mpr hrn0
  have hncast : n = ((hi.num - lo.num + 1 : ℤ) : ℚ) := by
    rw [hn]; push_cast; rw [hloe, hhie]
  have hflub : ⌊r * n⌋ < hi.num - lo.num + 1 := by
    apply Int.floor_lt.mpr
    rw [← hncast]; exact hrn
  have hflub' : ⌊r * n⌋ ≤ hi.num - lo.num := by omega
  unfold randomInt
  rw [← hn]
  constructor
  · have : (0 : ℚ) ≤ (⌊r * n⌋ : ℚ) := by exact_mod_cast hfl0
    linarith
  · have : ((⌊r * n⌋ : ℤ) : ℚ) ≤ ((hi.num - lo.num : ℤ) : ℚ) := by
      exact_mod_cast hflub'
    push_cast at this
    rw [hloe, hhie] at this
    linarith

lemma inBox_iff (c : PosConstraint) (p : Vec3) :
    inBox c p = true ↔
      (c.min.x ≤ p.x ∧ p.x ≤ c.max.x ∧ c.min.y ≤ p.y ∧ p.y ≤ c.max.y ∧
        c.min.z ≤ p.z ∧ p.z ≤ c.max.z) := by
  simp [inBox]

lemma satisfiesPositionConstraints_iff (portal : Portal) (pos : Vec3) :
    satisfiesPositionConstraints portal pos = true ↔
      ((∃ c ∈ portal.inclusive, inBox c pos = true) ∧
        ∀ c ∈ portal.exclusive, inBox c pos = false) := by
  simp [satisfiesPositionConstraints, List.any_eq_true, List.all_eq_true]

lemma tryJump_sound (portal : Portal)
    (hboxes : ∀ c ∈ portal.inclusive, intBox c) :
    ∀ ds : List JumpDraw, (∀ d ∈ ds, jumpDrawInRange d) →
    ∀ pos, tryJump portal ds = some pos →
    satisfiesPositionConstraints portal pos = true := by
  intro ds
  induction ds with
  | nil => intro _ pos h; simp [tryJump] at h
  | cons d rest ih =>
      intro hdr pos h
      rw [tryJump] at h
      by_cases hlen : portal.inclusive.length = 0
      · rw [if_pos hlen] at h; exact absurd h (by simp)
      · rw [if_neg hlen] at h
        cases hg : portal.inclusive.get?
            (randomInt 0 (portal.inclusive.length - 1) d.regionR).floor.toNat with
        | none => rw [hg] at h; exact absurd h (by simp)
        | some inc =>
            rw [hg] at h
            replace h : (if (portal.exclusive.any fun exc => inBox exc
                ⟨randomInt inc.min.x inc.max.x d.xR,
                  randomInt inc.min.y inc.max.y d.yR,
                  randomInt inc.min.z inc.max.z d.zR⟩) = true then
                tryJump portal rest
              else some ⟨randomInt inc.min.x inc.max.x d.xR,
                randomInt inc.min.y inc.max.y d.yR,
                randomInt inc.min.z inc.max.z d.zR⟩) = some pos := h
            have hmem : inc ∈ portal.inclusive := List.get?_mem hg
            by_cases hexc : (portal.exclusive.any fun exc => inBox exc
                ⟨randomInt inc.min.x inc.max.x d.xR,
                  randomInt inc.min.y inc.max.y d.yR,
                  randomInt inc.min.z inc.max.z d.zR⟩) = true
            · rw [if_pos hexc] at h
              exact ih (fun d' hd' => hdr d' (List.mem_cons_of_mem _ hd')) pos h
            · rw [if_neg hexc] at h
              have hpos : pos =
                  ⟨randomInt inc.min.x inc.max.x d.xR,
                    randomInt inc.min.y inc.max.y d.yR,
                    randomInt inc.min.z inc.max.z d.zR⟩ := by
                cases h; rfl
              obtain ⟨hx1, hy1, hz1, hx2, hy2, hz2, hxle, hyle, hzle⟩ :=
                hboxes inc hmem
              obtain ⟨hdx0, hdx1, hdy0, hdy1, hdz0, hdz1⟩ :=
                hdr d (List.mem_cons_self d rest)
              have hbx := randomInt_bounds inc.min.x inc.max.x d.xR hx1 hx2
                hxle hdx0 hdx1
              have hby := randomInt_bounds inc.min.y inc.max.y d.yR hy1 hy2
                hyle hdy0 hdy1
              have hbz := randomInt_bounds inc.min.z inc.max.z d.zR hz1 hz2
                hzle hdz0 hdz1
              rw [satisfiesPositionConstraints_iff]
              constructor
              · refine ⟨inc, hmem, ?_⟩
                rw [hpos, inBox_iff]
                exact ⟨hbx.1, hbx.2, hby.1, hby.2, hbz.1, hbz.2⟩
              · intro c hc
                have hf : (portal.exclusive.any fun exc => inBox exc
                    ⟨randomInt inc.min.x inc.max.x d.xR,
                      randomInt inc.min.y inc.max.y d.yR,
                      randomInt inc.min.z inc.max.z d.zR⟩) = false := by
                  simpa using hexc
                have := List.any_eq_false.mp hf c hc
                rw [hpos]
                simpa using this

lemma trySmallMove_sound (portal : Portal) (currentPos : Vec3) :
    ∀ ds : List MoveDraw, ∀ pos, trySmallMove portal currentPos ds = some pos →
    satisfiesPositionConstraints portal pos = true := by
  intro ds
  induction ds with
  | nil => intro pos h; simp [trySmallMove] at h
  | cons d rest ih =>
      intro pos h
      rw [trySmallMove] at h
      by_cases hz : (randomInt (-3) 3 d.xR = 0 ∧ randomInt (-3) 3 d.yR = 0 ∧
          randomInt (-3) 3 d.zR = 0)
      · rw [if_pos hz] at h; exact ih pos h
      · rw [if_neg hz] at h
        by_cases hinc : portal.inclusive.any (fun inc => inBox inc
            (addVec3 currentPos ⟨randomInt (-3) 3 d.xR, randomInt (-3) 3 d.yR,
              randomInt (-3) 3 d.zR⟩)) = true
        · rw [if_pos hinc] at h
          by_cases hexc : portal.exclusive.any (fun exc => inBox exc
              (addVec3 currentPos ⟨randomInt (-3) 3 d.xR, randomInt (-3) 3 d.yR,
                randomInt (-3) 3 d.zR⟩)) = true
          · rw [if_pos hexc] at h; exact ih pos h
          · rw [if_neg hexc] at h
            have hpos : pos = addVec3 currentPos
                ⟨randomInt (-3) 3 d.xR, randomInt (-3) 3 d.yR,
                  randomInt (-3) 3 d.zR⟩ := by cases h; rfl
            rw [satisfiesPositionConstraints_iff]
            constructor
            · obtain ⟨c, hc, hcin⟩ := List.any_eq_true.mp hinc
              exact ⟨c, hc, by rw [hpos]; simpa using hcin⟩
            · intro c hc
              have hf : (portal.exclusive.any fun exc => inBox exc
                  (addVec3 currentPos ⟨randomInt (-3) 3 d.xR,
                    randomInt (-3) 3 d.yR, randomInt (-3) 3 d.zR⟩)) = false := by
                simpa using hexc
              have := List.any_eq_false.mp hf c hc
              rw [hpos]
              simpa using this
        · rw [if_neg hinc] at h; exact ih pos h

lemma lookupState_updateState_ne (st : PState) (nm : String) (pos : Vec3)
    (m : String) (h : m ≠ nm) :
    lookupState (updateState st nm pos) m = lookupState st m := by
  induction st with
  | nil =>
      simp [updateState, lookupState, List.find?, h, Ne.symm h]
  | cons e rest ih =>
      by_cases he : e.1 = nm
      · simp only [updateState, if_pos he, lookupState, List.find?]
        have h1 : (decide (nm = m)) = false := by
          simp [Ne.symm h]
        have h2 : (decide (e.1 = m)) = false := by
          simp [he, Ne.symm h]
        rw [h1, h2]
      · simp only [updateState, if_neg he, lookupState, List.find?]
        by_cases hm : e.1 = m
        · rw [decide_eq_true hm]
        · rw [decide_eq_false hm]
          exact ih

lemma calculateCost_zero (prob : Problem) (st : PState) :
    calculateCost prob st 0 = (countLinkViolations prob st : ℚ) +
      (countPosViolations prob st : ℚ) * posPenalty := by
  simp [calculateCost]

lemma calculateCost_zero_nonneg (prob : Problem) (st : PState) :
    0 ≤ calculateCost prob st 0 := by
  rw [calculateCost_zero]
  have h1 : (0 : ℚ) ≤ (countLinkViolations prob st : ℚ) := Nat.cast_nonneg _
  have h2 : (0 : ℚ) ≤ (countPosViolations prob st : ℚ) := Nat.cast_nonneg _
  have h3 : (0 : ℚ) ≤ posPenalty := by norm_num [posPenalty]
  nlinarith

lemma countLink_eq_zero_of_cost_not_pos (prob : Problem) (st : PState)
    (h : ¬ 0 < calculateCost prob st 0) :
    countLinkViolations prob st = 0 := by
  rw [calculateCost_zero] at h
  have h2 : (0 : ℚ) ≤ (countPosViolations prob st : ℚ) * posPenalty := by
    have := Nat.cast_nonneg (α := ℚ) (countPosViolations prob st)
    have h3 : (0 : ℚ) ≤ posPenalty := by norm_num [posPenalty]
    nlinarith
  have h1 : (countLinkViolations prob st : ℚ) ≤ 0 := by linarith [not_lt.mp h]
  exact_mod_cast le_antisymm h1 (Nat.cast_nonneg _)

lemma cost_pos_of_countLink_pos (prob : Problem) (st : PState)
    (h : 0 < countLinkViolations prob st) :
    0 < calculateCost prob st 0 := by
  rw [calculateCost_zero]
  have h1 : (1 : ℚ) ≤ (countLinkViolations prob st : ℚ) := by
    exact_mod_cast h
  have h2 : (0 : ℚ) ≤ (countPosViolations prob st : ℚ) * posPenalty := by
    have := Nat.cast_nonneg (α := ℚ) (countPosViolations prob st)
    have h3 : (0 : ℚ) ≤ posPenalty := by norm_num [posPenalty]
    nlinarith
  linarith

lemma stage2Step_rejects_infeasible (prob : Problem) (s : Stage2St)
    (nb : PState) (a : Bool) (h : 0 < countLinkViolations prob nb) :
    stage2Step prob s (some nb) a = s := by
  have hc := cost_pos_of_countLink_pos prob nb h
  simp only [stage2Step]
  rw [if_pos hc]

lemma stage2Step_preserves (prob : Problem) (s : Stage2St)
    (nb : Option PState) (a : Bool)
    (hc : countLinkViolations prob s.currentState = 0)
    (hb : countLinkViolations prob s.bestState = 0) :
    countLinkViolations prob (stage2Step prob s nb a).currentState = 0 ∧
      countLinkViolations prob (stage2Step prob s nb a).bestState = 0 := by
  cases nb with
  | none => exact ⟨hc, hb⟩
  | some nbs =>
      simp only [stage2Step]
      by_cases hviol : 0 < calculateCost prob nbs 0
      · rw [if_pos hviol]; exact ⟨hc, hb⟩
      · rw [if_neg hviol]
        have hz : countLinkViolations prob nbs = 0 :=
          countLink_eq_zero_of_cost_not_pos prob nbs hviol
        by_cases hacc : (calculateCost prob nbs 1 - s.currentFullCost < 0 ∨
            a = true)
        · rw [if_pos hacc]
          simp only [stage2Cool, stage2Accept]
          refine ⟨hz, ?_⟩
          split
          · exact hz
          · exact hb
        · rw [if_neg hacc]
          simp only [stage2Cool]
          exact ⟨hc, hb⟩

lemma stage2Loop_preserves (prob : Problem)
    (inputs : List (Option PState × Bool)) : ∀ s : Stage2St,
    countLinkViolations prob s.currentState = 0 →
    countLinkViolations prob s.bestState = 0 →
    countLinkViolations prob (stage2Loop prob inputs s).currentState = 0 ∧
      countLinkViolations prob (stage2Loop prob inputs s).bestState = 0 := by
  induction inputs with
  | nil => intro s hc hb; exact ⟨hc, hb⟩
  | cons e rest ih =>
      intro s hc hb
      obtain ⟨hc', hb'⟩ := stage2Step_preserves prob s e.1 e.2 hc hb
      simp only [stage2Loop]
      by_cases hT : (stage2Step prob s e.1 e.2).temperature <
          absoluteTemperature
      · rw [if_pos hT]; exact ⟨hc', hb'⟩
      · rw [if_neg hT]; exact ih _ hc' hb'

lemma selectClosestFrom_spec (Bd : Vec3) :
    ∀ (rest : List (String × Vec3)) (b : String × Vec3),
    (selectClosestFrom Bd b rest = b ∨ selectClosestFrom Bd b rest ∈ rest) ∧
    distSq Bd (selectClosestFrom Bd b rest).2 ≤ distSq Bd b.2 ∧
    (∀ t ∈ rest, distSq Bd (selectClosestFrom Bd b rest).2 ≤ distSq Bd t.2) ∧
    (distSq Bd b.2 = distSq Bd (selectClosestFrom Bd b rest).2 →
      (selectClosestFrom Bd b rest).2.y ≤ b.2.y) ∧
    (∀ t ∈ rest, distSq Bd t.2 = distSq Bd (selectClosestFrom Bd b rest).2 →
      (selectClosestFrom Bd b rest).2.y ≤ t.2.y) := by
  intro rest
  induction rest with
  | nil =>
      intro b
      refine ⟨Or.inl rfl, le_refl _, ?_, ?_, ?_⟩ <;> simp [selectClosestFrom]
  | cons t r ih =>
      intro b
      by_cases h1 : distSq Bd t.2 < distSq Bd b.2
      · have hsel : selectClosestFrom Bd b (t :: r) = selectClosestFrom Bd t r := by
          simp only [selectClosestFrom]
          rw [if_pos h1]
        obtain ⟨imem, ile, iall, iyb, iyall⟩ := ih t
        rw [hsel]
        refine ⟨?_, ?_, ?_, ?_, ?_⟩
        · rcases imem with he | hm
          · exact Or.inr (by rw [he]; exact List.mem_cons_self t r)
          · exact Or.inr (List.mem_cons_of_mem _ hm)
        · linarith
        · intro t' ht'
          rcases List.mem_cons.mp ht' with he | hm
          · subst he; exact ile
          · exact iall t' hm
        · intro heq; linarith
        · intro t' ht'
          rcases List.mem_cons.mp ht' with he | hm
          · subst he; exact iyb
          · exact iyall t' hm
      · by_cases h2 : distSq Bd t.2 = distSq Bd b.2 ∧ t.2.y < b.2.y
        · have hsel : selectClosestFrom Bd b (t :: r) =
              selectClosestFrom Bd t r := by
            simp only [selectClosestFrom]
            rw [if_neg h1, if_pos h2]
          obtain ⟨imem, ile, iall, iyb, iyall⟩ := ih t
          rw [hsel]
          refine ⟨?_, ?_, ?_, ?_, ?_⟩
          · rcases imem with he | hm
            · exact Or.inr (by rw [he]; exact List.mem_cons_self t r)
            · exact Or.inr (List.mem_cons_of_mem _ hm)
          · rw [← h2.1]; exact ile
          · intro t' ht'
            rcases List.mem_cons.mp ht' with he | hm
            · subst he; exact ile
            · exact iall t' hm
          · intro heq
            have : (selectClosestFrom Bd t r).2.y ≤ t.2.y := by
              apply iyb; rw [h2.1]; exact heq
            linarith [h2.2]
          · intro t' ht'
            rcases List.mem_cons.mp ht' with he | hm
            · subst he; exact iyb
            · exact iyall t' hm
        · have hsel : selectClosestFrom Bd b (t :: r) =
              selectClosestFrom Bd b r := by
            simp only [selectClosestFrom]
            rw [if_neg h1, if_neg h2]
          obtain ⟨imem, ile, iall, iyb, iyall⟩ := ih b
          rw [hsel]
          have hble : distSq Bd b.2 ≤ distSq Bd t.2 := not_lt.mp h1
          refine ⟨?_, ile, ?_, iyb, ?_⟩
          · rcases imem with he | hm
            · exact Or.inl he
            · exact Or.inr (List.mem_cons_of_mem _ hm)
          · intro t' ht'
            rcases List.mem_cons.mp ht' with he | hm
            · subst he; linarith
            · exact iall t' hm
          · intro t' ht'
            rcases List.mem_cons.mp ht' with he | hm
            · subst he
              intro heq
              have hbt : distSq Bd b.2 = distSq Bd t'.2 := by linarith
              have hby : b.2.y ≤ t'.2.y := by
                by_contra hlt
                exact h2 ⟨hbt.symm, lt_of_not_le hlt⟩
              have : (selectClosestFrom Bd b r).2.y ≤ b.2.y := by
                apply iyb; linarith
              linarith
            · exact iyall t' hm

lemma selectClosest_eq_none_iff (Bd : Vec3) (l : List (String × Vec3)) :
    selectClosest Bd l = none ↔ l = [] := by
  cases l <;> simp [selectClosest]

lemma probeLinksTo_iff (prob : Problem) (st : PState) (destDim : Dim)
    (dst : String) (p : Vec3) :
    probeLinksTo prob st destDim dst p = true ↔
      (searchCandidates prob st destDim (targetBlock destDim p) ≠ [] ∧
        ∃ c, selectClosest (targetBlock destDim p)
            (searchCandidates prob st destDim (targetBlock destDim p)) =
          some c ∧ c.1 = dst) := by
  unfold probeLinksTo
  cases hs : selectClosest (targetBlock destDim p)
      (searchCandidates prob st destDim (targetBlock destDim p)) with
  | none =>
      have hempty := (selectClosest_eq_none_iff _ _).mp hs
      simp [hs, hempty, selectClosest]
  | some c =>
      have hne : searchCandidates prob st destDim (targetBlock destDim p) ≠
          [] := by
        intro hcontr
        rw [hcontr] at hs
        simp [selectClosest] at hs
      simp [hs, hne]

/-! ## Claim theorems -/

/-- C1.  For every link check, the three probe points are exactly: the
block-center point (the position plus (+0.5, +0.0, +0.5)) and two points
offset by plus and minus half the entity footprint width along the axis
perpendicular to the source portal's facing (facing X spreads along Z,
facing Z spreads along X); and the target block of a probe point scales only
the two horizontal coordinates by the factor determined by the destination
dimension, leaves the vertical coordinate unscaled, and floors all three
coordinates. -/
theorem probe_points_and_target_block (pos : Vec3) (facing : Facing) (w : ℚ)
    (d : Dim) :
    ((getEntityTestPositions pos facing w).length = 3) ∧
    (getEntityTestPositions pos facing w =
      match facing with
      | Facing.X =>
          [⟨pos.x + 1/2, pos.y + 0, pos.z + 1/2⟩,
           ⟨pos.x + 1/2, pos.y + 0, pos.z + 1/2 + w / 2⟩,
           ⟨pos.x + 1/2, pos.y + 0, pos.z + 1/2 - w / 2⟩]
      | Facing.Z =>
          [⟨pos.x + 1/2, pos.y + 0, pos.z + 1/2⟩,
           ⟨pos.x + 1/2 + w / 2, pos.y + 0, pos.z + 1/2⟩,
           ⟨pos.x + 1/2 - w / 2, pos.y + 0, pos.z + 1/2⟩]) ∧
    (∀ p : Vec3, targetBlock d p =
      ⟨(⌊p.x * getCoordScale d⌋ : ℚ), (⌊p.y⌋ : ℚ),
        (⌊p.z * getCoordScale d⌋ : ℚ)⟩) := by
  cases facing <;> exact ⟨rfl, rfl, fun p => rfl⟩

/-- C2.  The link predicate returns true iff for each of the three probe
points the candidate set (destination-dimension portals within the
destination-dependent square search radius of the target block on the two
horizontal axes) is non-empty and the selected candidate is the declared
destination; an empty candidate set at any probe makes it false. -/
theorem checkActualLink_iff (prob : Problem) (st : PState) (src dst : String)
    (sp : Portal) (spos : Vec3) (dp : Portal)
    (h1 : lookupPortal prob src = some sp)
    (h2 : lookupState st src = some spos)
    (h3 : lookupPortal prob dst = some dp) :
    checkActualLink prob src dst st = true ↔
      ∀ p ∈ getEntityTestPositions spos sp.face prob.entitySize,
        (searchCandidates prob st dp.dim (targetBlock dp.dim p) ≠ [] ∧
          ∃ c, selectClosest (targetBlock dp.dim p)
              (searchCandidates prob st dp.dim (targetBlock dp.dim p)) =
            some c ∧ c.1 = dst) := by
  unfold checkActualLink
  rw [h1, h2, h3]
  rw [List.all_eq_true]
  constructor
  · intro h p hp
    exact (probeLinksTo_iff prob st dp.dim dst p).mp (h p hp)
  · intro h p hp
    exact (probeLinksTo_iff prob st dp.dim dst p).mpr (h p hp)

unseal Rat.mul Rat.inv Rat.add Rat.sub Rat.ofScientific in
/-- Witness for C2: the probe-wise characterization instantiated on the
concrete two-portal problem in its linking state. -/
theorem checkActualLink_iff_witness :
    checkActualLink probW "P1" "P2" sGood = true ↔
      ∀ p ∈ getEntityTestPositions (vec3 0 64 0) portalP1.face
          probW.entitySize,
        (searchCandidates probW sGood portalP2.dim
            (targetBlock portalP2.dim p) ≠ [] ∧
          ∃ c, selectClosest (targetBlock portalP2.dim p)
              (searchCandidates probW sGood portalP2.dim
                (targetBlock portalP2.dim p)) = some c ∧ c.1 = "P2") :=
  checkActualLink_iff probW sGood "P1" "P2" portalP1 (vec3 0 64 0) portalP2
    (by decide) (by decide) (by decide)

/-- C3.  On a non-empty candidate list the selection returns a candidate of
minimum squared Euclidean distance over all three axes from the target
block, and its vertical coordinate is lowest among the candidates attaining
that minimum distance. -/
theorem selectClosest_min_dist_then_lowest_y (Bd : Vec3)
    (targets : List (String × Vec3)) (h : targets ≠ []) :
    ∃ c, selectClosest Bd targets = some c ∧ c ∈ targets ∧
      (∀ t ∈ targets, distSq Bd c.2 ≤ distSq Bd t.2) ∧
      (∀ t ∈ targets, distSq Bd t.2 = distSq Bd c.2 → c.2.y ≤ t.2.y) := by
  cases targets with
  | nil => exact absurd rfl h
  | cons b rest =>
      obtain ⟨imem, ile, iall, iyb, iyall⟩ := selectClosestFrom_spec Bd rest b
      refine ⟨selectClosestFrom Bd b rest, rfl, ?_, ?_, ?_⟩
      · rcases imem with he | hm
        · rw [he]; exact List.mem_cons_self b rest
        · exact List.mem_cons_of_mem _ hm
      · intro t ht
        rcases List.mem_cons.mp ht with he | hm
        · subst he; exact ile
        · exact iall t hm
      · intro t ht
        rcases List.mem_cons.mp ht with he | hm
        · subst he; intro heq; exact iyb heq
        · exact iyall t hm

unseal Rat.mul Rat.inv Rat.add Rat.sub Rat.ofScientific in
/-- Witness for C3: the tie-break scenario of the specification, all three
candidates at squared distance 25 from the origin, the lowest-y one
(y = -4) winning. -/
theorem selectClosest_min_dist_then_lowest_y_witness :
    ([("A", vec3 5 0 0), ("B", vec3 0 0 5), ("C", vec3 3 (-4) 0)] :
        List (String × Vec3)) ≠ [] ∧
    ∃ c, selectClosest (vec3 0 0 0)
        [("A", vec3 5 0 0), ("B", vec3 0 0 5), ("C", vec3 3 (-4) 0)] =
        some c ∧
      c ∈ [("A", vec3 5 0 0), ("B", vec3 0 0 5), ("C", vec3 3 (-4) 0)] ∧
      (∀ t ∈ [("A", vec3 5 0 0), ("B", vec3 0 0 5), ("C", vec3 3 (-4) 0)],
        distSq (vec3 0 0 0) c.2 ≤ distSq (vec3 0 0 0) t.2) ∧
      (∀ t ∈ [("A", vec3 5 0 0), ("B", vec3 0 0 5), ("C", vec3 3 (-4) 0)],
        distSq (vec3 0 0 0) t.2 = distSq (vec3 0 0 0) c.2 →
          c.2.y ≤ t.2.y) :=
  ⟨by decide, selectClosest_min_dist_then_lowest_y (vec3 0 0 0)
    [("A", vec3 5 0 0), ("B", vec3 0 0 5), ("C", vec3 3 (-4) 0)] (by decide)⟩

/-- C4.  In Stage 2, a proposed neighbor with a nonzero link-violation count
is rejected with the entire iteration state unchanged, independently of the
probabilistic draw; consequently, starting from a feasible current and best
state, the current and the recorded best state keep zero link violations
through the whole stage. -/
theorem stage2_feasibility_invariant (prob : Problem)
    (inputs : List (Option PState × Bool)) (s : Stage2St) (nb : PState)
    (a : Bool)
    (hc : countLinkViolations prob s.currentState = 0)
    (hb : countLinkViolations prob s.bestState = 0) :
    (0 < countLinkViolations prob nb → stage2Step prob s (some nb) a = s) ∧
    countLinkViolations prob (stage2Loop prob inputs s).currentState = 0 ∧
    countLinkViolations prob (stage2Loop prob inputs s).bestState = 0 := by
  refine ⟨fun h => stage2Step_rejects_infeasible prob s nb a h, ?_, ?_⟩
  · exact (stage2Loop_preserves prob inputs s hc hb).1
  · exact (stage2Loop_preserves prob inputs s hc hb).2

unseal Rat.mul Rat.inv Rat.add Rat.sub Rat.ofScientific in
/-- Witness for C4: the invariant on the concrete problem, with an
infeasible neighbor proposed and rejected during the run. -/
theorem stage2_feasibility_invariant_witness :
    countLinkViolations probW sGood = 0 ∧
    ((0 < countLinkViolations probW sBad →
      stage2Step probW ⟨sGood, 0, sGood, 0, 100⟩ (some sBad) true =
        ⟨sGood, 0, sGood, 0, 100⟩) ∧
    countLinkViolations probW (stage2Loop probW
      [(some sBad, true), (none, false)]
      ⟨sGood, 0, sGood, 0, 100⟩).currentState = 0 ∧
    countLinkViolations probW (stage2Loop probW
      [(some sBad, true), (none, false)]
      ⟨sGood, 0, sGood, 0, 100⟩).bestState = 0) :=
  ⟨by decide, stage2_feasibility_invariant probW
    [(some sBad, true), (none, false)] ⟨sGood, 0, sGood, 0, 100⟩ sBad true
    (by decide) (by decide)⟩

unseal Rat.mul Rat.inv Rat.add Rat.sub Rat.ofScientific in
/-- C5.  A Stage 1 run in which attempt 1 encounters (and accepts) the state
sMid with a single link violation, but attempts 2 and 3 re-initialize on the
two-violation state sBad: the re-initialization resets the tracking
variables, so the run ends infeasible reporting minimum 2 and best state
sBad, although a state with only 1 violation was seen in attempt 1.  The
lowest-violation state across all attempts is therefore not what the run
reports, contradicting both the specification and the source's own comments
(the tracking comments at the top of solve and inside the acceptance branch
both promise a minimum across all attempts). -/
theorem stage1_reset_loses_best_across_attempts :
    calculateCost probW sMid 0 = 1 ∧
    calculateCost probW sBad 0 = 2 ∧
    (stage1Solve probW sBad [(some sMid, true)]
      [(some sBad, []), (some sBad, [])]).feasibleFound = false ∧
    (stage1Solve probW sBad [(some sMid, true)]
      [(some sBad, []), (some sBad, [])]).minViolationsFound = 2 ∧
    (stage1Solve probW sBad [(some sMid, true)]
      [(some sBad, []), (some sBad, [])]).bestViolationState = sBad := by
  refine ⟨?_, ?_, ?_, ?_, ?_⟩ <;> decide

unseal Rat.mul Rat.inv Rat.add Rat.sub Rat.ofScientific in
/-- C6 counterexample.  A Stage 2 iteration whose neighbor generation failed
leaves the temperature unchanged (the continue path skips the cooling line),
while multiplying by the cooling factor would have changed it: the
temperature is not multiplied by the cooling factor on every iteration. -/
theorem cooling_skipped_on_failed_generation :
    (stage2Step emptyProblem ⟨[], 0, [], 0, 100⟩ none true).temperature =
      100 ∧
    (100 : ℚ) * coolingRate ≠ 100 := by
  exact ⟨rfl, by decide⟩

lemma stage1_cool_shape (s X : Stage1St) (htemp : X.temp = s.temp) :
    (if X.feasibleFound then X else stage1Cool X).temp =
      (if (if X.feasibleFound then X else stage1Cool X).feasibleFound then
        s.temp else s.temp * stage1CoolingRate) := by
  by_cases hfb : X.feasibleFound = true
  · simp [hfb, htemp]
  · simp only [Bool.not_eq_true] at hfb
    simp [hfb, stage1Cool, htemp]

lemma stage1Step_temp (prob : Problem) (s : Stage1St) (nb : PState)
    (a : Bool) :
    (stage1Step prob s (some nb) a).temp =
      (if (stage1Step prob s (some nb) a).feasibleFound then s.temp
        else s.temp * stage1CoolingRate) := by
  simp only [stage1Step]
  split
  · exact stage1_cool_shape s (stage1Accept s nb (calculateCost prob nb 0)) rfl
  · exact stage1_cool_shape s
      (if a = true then stage1Accept s nb (calculateCost prob nb 0) else s)
      (by split <;> rfl)

/-- C6 amended.  The temperature is multiplied by the geometric cooling
factor exactly on the iterations that run the loop body to its end,
regardless of acceptance or rejection of the proposed neighbor: a failed
neighbor generation leaves the whole iteration state (temperature included)
unchanged in both stages, a Stage 2 neighbor rejected as infeasible likewise
leaves it unchanged, and a Stage 1 iteration that just reached feasibility
breaks before the cooling line; in every other case the temperature is
multiplied by the stage's cooling factor whether or not the move was
accepted. -/
theorem cooling_exactly_on_completed_iterations (prob : Problem)
    (s2 : Stage2St) (s1 : Stage1St) (nb : PState) (a : Bool) :
    stage2Step prob s2 none a = s2 ∧
    stage1Step prob s1 none a = s1 ∧
    (stage2Step prob s2 (some nb) a).temperature =
      (if 0 < calculateCost prob nb 0 then s2.temperature
        else s2.temperature * coolingRate) ∧
    (stage1Step prob s1 (some nb) a).temp =
      (if (stage1Step prob s1 (some nb) a).feasibleFound then s1.temp
        else s1.temp * stage1CoolingRate) := by
  refine ⟨rfl, rfl, ?_, ?_⟩
  · by_cases hviol : 0 < calculateCost prob nb 0
    · rw [if_pos hviol]
      simp only [stage2Step]
      rw [if_pos hviol]
    · rw [if_neg hviol]
      simp only [stage2Step]
      rw [if_neg hviol]
      split <;> simp [stage2Cool, stage2Accept]
  · exact stage1Step_temp prob s1 nb a

lemma lookupPortal_mem (prob : Problem) (nm : String) (portal : Portal)
    (h : lookupPortal prob nm = some portal) :
    ∃ pr ∈ prob.portals, pr.2 = portal := by
  unfold lookupPortal at h
  cases hf : prob.portals.find? (fun p => p.1 = nm) with
  | none => rw [hf] at h; exact absurd h (by simp)
  | some pr =>
      rw [hf] at h
      simp only [Option.map_some', Option.some.injEq] at h
      exact ⟨pr, List.mem_of_find?_eq_some hf, h⟩

unseal Rat.mul Rat.inv Rat.add Rat.sub Rat.ofScientific in
/-- C7 counterexample.  Two non-failure outputs of the neighbor generator
violating the claim at concrete inputs: with the single-point integer box of
prob7, a fired large jump redraws the portal's current position and returns
a state equal to the input, differing in no portal's position; with the
fractional box of prob7b (x up to 1/2), the jump draw 0.9 yields position
(1,0,0), outside every inclusive region of the moved portal, so the new
position violates its position-containment rule. -/
theorem generateNeighbor_counterexample :
    (generateNeighbor prob7 st7 true d7 = some st7) ∧
    (generateNeighbor prob7b st7 true d7b =
      some (updateState st7 "P" (vec3 1 0 0))) ∧
    lookupPortal prob7b "P" = some portalHalf ∧
    satisfiesPositionConstraints portalHalf (vec3 1 0 0) = false := by
  refine ⟨?_, ?_, ?_, ?_⟩ <;> decide

/-- C7 amended.  Every output of the neighbor generator is either the
failure sentinel (returned when no valid move is found within the bounded
attempt budgets) or a state replacing exactly the chosen portal's binding
(every other portal's position is unchanged; under a large jump the new
position may coincide with the old one).  Provided every inclusive region
has integer, ordered bounds and the jump draws lie in [0,1) as Math.random()
guarantees, the new position always satisfies the moved portal's
position-containment rule: inside at least one inclusive region and outside
all exclusive regions. -/
theorem generateNeighbor_output_shape (prob : Problem) (st : PState)
    (isStage1 : Bool) (d : NeighborDraws)
    (hboxes : ∀ np ∈ prob.portals, ∀ c ∈ np.2.inclusive, intBox c)
    (hdr : ∀ jd ∈ d.jumpDraws, jumpDrawInRange jd) :
    generateNeighbor prob st isStage1 d = none ∨
    ∃ nm portal pos, lookupPortal prob nm = some portal ∧
      generateNeighbor prob st isStage1 d = some (updateState st nm pos) ∧
      satisfiesPositionConstraints portal pos = true ∧
      (∀ m, m ≠ nm →
        lookupState (updateState st nm pos) m = lookupState st m) := by
  cases hnm : (prob.portals.map (fun p => p.1)).get?
      (randomInt 0 ((prob.portals.map (fun p => p.1)).length - 1)
        d.portalR).floor.toNat with
  | none =>
      left
      simp only [generateNeighbor, hnm]
  | some portalName =>
      cases hp : lookupPortal prob portalName with
      | none =>
          left
          simp only [generateNeighbor, hnm, hp]
      | some portal =>
          cases hcur : lookupState st portalName with
          | none =>
              left
              simp only [generateNeighbor, hnm, hp, hcur]
          | some currentPos =>
              have hbox : ∀ c ∈ portal.inclusive, intBox c := by
                obtain ⟨pr, hmem, hpr⟩ := lookupPortal_mem prob portalName
                  portal hp
                intro c hc
                exact hboxes pr hmem c (by rw [hpr]; exact hc)
              cases hj : (if isStage1 = true ∧
                  d.jumpChanceR < stage1LargeJumpChance then
                  tryJump portal (d.jumpDraws.take 10) else none) with
              | some newPos =>
                  have htj : tryJump portal (d.jumpDraws.take 10) =
                      some newPos := by
                    by_cases hcond : (isStage1 = true ∧
                        d.jumpChanceR < stage1LargeJumpChance)
                    · rwa [if_pos hcond] at hj
                    · rw [if_neg hcond] at hj; exact absurd hj (by simp)
                  right
                  refine ⟨portalName, portal, newPos, hp, ?_, ?_, ?_⟩
                  · simp only [generateNeighbor, hnm, hp, hcur, hj]
                  · exact tryJump_sound portal hbox (d.jumpDraws.take 10)
                      (fun d' hd' => hdr d' (List.mem_of_mem_take hd'))
                      newPos htj
                  · intro m hm
                    exact lookupState_updateState_ne st portalName newPos m hm
              | none =>
                  cases hsm : trySmallMove portal currentPos
                      (d.moveDraws.take 50) with
                  | some newPos =>
                      right
                      refine ⟨portalName, portal, newPos, hp, ?_, ?_, ?_⟩
                      · simp only [generateNeighbor, hnm, hp, hcur, hj, hsm]
                      · exact trySmallMove_sound portal currentPos
                          (d.moveDraws.take 50) newPos hsm
                      · intro m hm
                        exact lookupState_updateState_ne st portalName newPos
                          m hm
                  | none =>
                      left
                      simp only [generateNeighbor, hnm, hp, hcur, hj, hsm]

unseal Rat.mul Rat.inv Rat.add Rat.sub Rat.ofScientific in
/-- Witness for the amended C7: the single-point integer problem satisfies
the well-formedness hypotheses and the conclusion holds there. -/
theorem generateNeighbor_output_shape_witness :
    (∀ np ∈ prob7.portals, ∀ c ∈ np.2.inclusive, intBox c) ∧
    (∀ jd ∈ d7.jumpDraws, jumpDrawInRange jd) ∧
    (generateNeighbor prob7 st7 true d7 = none ∨
      ∃ nm portal pos, lookupPortal prob7 nm = some portal ∧
        generateNeighbor prob7 st7 true d7 = some (updateState st7 nm pos) ∧
        satisfiesPositionConstraints portal pos = true ∧
        (∀ m, m ≠ nm →
          lookupState (updateState st7 nm pos) m = lookupState st7 m)) :=
  ⟨by decide, by decide,
    generateNeighbor_output_shape prob7 st7 true d7 (by decide) (by decide)⟩

/-- C8.  The weight-0 cost is independent of the optimization goals: two
problems identical except for their optimizationPairs lists (goals and
weights alike) give the same weight-0 cost on every state.  At weight 0 the
optimization block is not evaluated and neither violation count reads the
goal list. -/
theorem calculateCost_weight0_goal_independent (prob : Problem)
    (goals1 goals2 : List OptGoal) (st : PState) :
    calculateCost { prob with optimizationPairs := goals1 } st 0 =
      calculateCost { prob with optimizationPairs := goals2 } st 0 := rfl

/-- C9.  If the recorded best state still has a nonzero link-violation count
at finalization, the returned result's success flag is false and its message
is the verifier's message extended with the distinct internal-error note;
the run is never reported as a success in that case. -/
theorem finalize_internal_error_on_violations (prob : Problem)
    (best : PState) (h : 0 < countLinkViolations prob best) :
    (finalizeStage2 prob best).success = false ∧
    ∃ m, (finalizeStage2 prob best).message =
      m ++ " (Internal Error: Final state has " ++
        ratToString (calculateCost prob best 0) ++ " violations)" := by
  have hc := cost_pos_of_countLink_pos prob best h
  unfold finalizeStage2
  rw [if_pos hc]
  exact ⟨rfl, ⟨_, rfl⟩⟩

unseal Rat.mul Rat.inv Rat.add Rat.sub Rat.ofScientific in
/-- Witness for C9: the two-portal problem finalized on the two-violation
state sBad. -/
theorem finalize_internal_error_on_violations_witness :
    0 < countLinkViolations probW sBad ∧
    ((finalizeStage2 probW sBad).success = false ∧
      ∃ m, (finalizeStage2 probW sBad).message =
        m ++ " (Internal Error: Final state has " ++
          ratToString (calculateCost probW sBad 0) ++ " violations)") :=
  ⟨by decide, finalize_internal_error_on_violations probW sBad (by decide)⟩

lemma parsePortalCmd_entitySize (prob : Problem) (parts : List String)
    (p' : Problem) (h : parsePortalCmd prob parts = Except.ok p') :
    p'.entitySize = prob.entitySize := by
  simp only [parsePortalCmd] at h
  repeat'
    first
      | exact Except.noConfusion h
      | (injection h with h; subst h; rfl)
      | split at h

lemma parsePosCmd_entitySize (prob : Problem) (parts : List String)
    (p' : Problem) (h : parsePosCmd prob parts = Except.ok p') :
    p'.entitySize = prob.entitySize := by
  simp only [parsePosCmd] at h
  repeat'
    first
      | exact Except.noConfusion h
      | (injection h with h; subst h; rfl)
      | split at h

lemma parseLinkCmd_entitySize (prob : Problem) (parts : List String)
    (p' : Problem) (h : parseLinkCmd prob parts = Except.ok p') :
    p'.entitySize = prob.entitySize := by
  simp only [parseLinkCmd] at h
  repeat'
    first
      | exact Except.noConfusion h
      | (injection h with h; subst h; rfl)
      | split at h

lemma parseOptimizeCmd_entitySize (prob : Problem) (parts : List String)
    (p' : Problem) (h : parseOptimizeCmd prob parts = Except.ok p') :
    p'.entitySize = prob.entitySize := by
  simp only [parseOptimizeCmd] at h
  repeat'
    first
      | exact Except.noConfusion h
      | (injection h with h; subst h; rfl)
      | split at h

lemma parseOptimizePosCmd_entitySize (prob : Problem) (parts : List String)
    (p' : Problem) (h : parseOptimizePosCmd prob parts = Except.ok p') :
    p'.entitySize = prob.entitySize := by
  simp only [parseOptimizePosCmd] at h
  repeat'
    first
      | exact Except.noConfusion h
      | (injection h with h; subst h; rfl)
      | split at h

lemma parseLine_preserves_entitySize (prob : Problem) (line : List Char)
    (p' : Problem)
    (hne : ∀ cmd rest, tokenize line = cmd :: rest →
      upperStr cmd ≠ "ENTITY_SIZE")
    (h : parseLine prob line = Except.ok p') :
    p'.entitySize = prob.entitySize := by
  simp only [parseLine] at h
  split at h
  · exact Except.noConfusion h
  · rename_i cmd rest htok
    have hcmd : upperStr cmd ≠ "ENTITY_SIZE" := hne cmd rest htok
    rw [if_neg hcmd] at h
    split_ifs at h <;>
      first
        | exact Except.noConfusion h
        | exact parsePortalCmd_entitySize _ _ _ h
        | exact parsePosCmd_entitySize _ _ _ h
        | exact parseLinkCmd_entitySize _ _ _ h
        | exact parseOptimizeCmd_entitySize _ _ _ h
        | exact parseOptimizePosCmd_entitySize _ _ _ h

lemma finalValidation_preserves (prob p' : Problem)
    (h : finalValidation prob = Except.ok p') : p' = prob := by
  unfold finalValidation at h
  split at h
  · exact absurd h (by simp)
  · simp only [Except.ok.injEq] at h
    exact h.symm

lemma parseLines_preserves_entitySize :
    ∀ (lines : List (List Char)) (prob : Problem) (idx : ℕ) (p : Problem),
    (∀ l ∈ lines, lineCommand l ≠ some "ENTITY_SIZE") →
    parseLines prob idx lines = Except.ok p →
    p.entitySize = prob.entitySize := by
  intro lines
  induction lines with
  | nil =>
      intro prob idx p _ h
      rw [finalValidation_preserves prob p h]
  | cons l rest ih =>
      intro prob idx p hno h
      unfold parseLines at h
      by_cases hskip : ((trimChars l).take 1 = ['#'] ∨ (trimChars l).isEmpty)
      · rw [if_pos hskip] at h
        exact ih prob (idx + 1) p
          (fun l' hl' => hno l' (List.mem_cons_of_mem _ hl')) h
      · rw [if_neg hskip] at h
        have hl := hno l (List.mem_cons_self l rest)
        cases hp : parseLine prob (trimChars l) with
        | error e => rw [hp] at h; exact absurd h (by simp)
        | ok p1 =>
            rw [hp] at h
            have h1 : p1.entitySize = prob.entitySize := by
              apply parseLine_preserves_entitySize prob (trimChars l) p1 _ hp
              intro cmd rest' htok hup
              apply hl
              unfold lineCommand
              rw [if_neg hskip, htok]
              show some (upperStr cmd) = some "ENTITY_SIZE"
              rw [hup]
            have h2 : p.entitySize = p1.entitySize :=
              ih p1 (idx + 1) p
                (fun l' hl' => hno l' (List.mem_cons_of_mem _ hl')) h
            rw [h2, h1]

/-- C10.  An input with no ENTITY_SIZE directive parses (when it parses at
all) to a problem whose entity footprint width is the default 1.0; in
particular the positivity check of the directive is never applied to the
default. -/
theorem parse_entitySize_defaults_to_one (text : String)
    (hno : noEntitySizeCmd text = true) :
    ∀ p, parseProblem text = Except.ok p → p.entitySize = 1 := by
  intro p hp
  unfold parseProblem at hp
  have hall : ∀ l ∈ splitListOn '\n' text.data,
      lineCommand l ≠ some "ENTITY_SIZE" := by
    intro l hl
    have := List.all_eq_true.mp hno l hl
    exact of_decide_eq_true this
  have := parseLines_preserves_entitySize (splitListOn '\n' text.data)
    emptyProblem 0 p hall hp
  rw [this]
  rfl

unseal Rat.mul Rat.inv Rat.add Rat.sub Rat.ofScientific in
/-- Witness for C10: the concrete ENTITY_SIZE-free input txt10 satisfies the
hypothesis, parses successfully to prob10, and prob10's entity size is 1. -/
theorem parse_entitySize_defaults_to_one_witness :
    noEntitySizeCmd txt10 = true ∧
    parseProblem txt10 = Except.ok prob10 ∧ prob10.entitySize = 1 :=
  ⟨by decide, by rfl,
    parse_entitySize_defaults_to_one txt10 (by decide) prob10 (by rfl)⟩
